import Mathlib

/-!
Verification of the Discord RPC protocol client (`discord/client.go`) of the
Apple Music Discord bridge: the activity encoder, the length-prefixed framing
transport, the session life cycle and the socket locator, shallowly embedded
in Lean.  Go machine integers are modelled as `Nat`/`Int` with explicit
`% 2 ^ w` where overflow matters; `time.Time` instants are modelled by their
`UnixMilli` value (an `Int`); JSON documents are modelled by an inductive
`Json` tree, and Go's `encoding/json` field marshaling (with its `omitempty`
semantics per field type) by functions producing key/value lists.
-/

/-! ## JSON values -/

/-- A JSON value.  Objects are ordered key/value lists, matching the order in
which `encoding/json` writes the fields of a Go struct. -/
inductive Json where
  | str : String → Json
  | int : Int → Json
  | obj : List (String × Json) → Json
  | arr : List Json → Json
  | null : Json

namespace discord

/-! ## Data model (`client.go` lines 26-48) -/

/-- `Timestamps` (client.go): `Start`/`End` are `*time.Time`; an instant is
modelled by its `UnixMilli` value. `End` is a Lean keyword, hence `end_`. -/
structure Timestamps where
  start : Option Int
  end_ : Option Int

/-- `Button` (client.go). -/
structure Button where
  label : String
  url : String

/-- `Activity` (client.go lines 26-36). -/
structure Activity where
  type : Int
  details : String
  state : String
  largeImage : String
  largeText : String
  smallImage : String
  smallText : String
  timestamps : Option Timestamps
  buttons : List Button

/-! ## Wire payload structures (`client.go` lines 62-91) -/

/-- `payloadAssets` (client.go lines 76-81): four string fields, each tagged
`omitempty`. -/
structure PayloadAssets where
  largeImage : String
  largeText : String
  smallImage : String
  smallText : String

/-- `payloadTimestamps` (client.go lines 83-86): `*uint64` fields tagged
`omitempty`; a present value is a `Nat` below `2 ^ 64`. -/
structure PayloadTimestamps where
  start : Option Nat
  end_ : Option Nat

/-- `payloadButton` (client.go lines 88-91). -/
structure PayloadButton where
  label : String
  url : String

/-- `payloadActivity` (client.go lines 67-74).  `assets` is a struct value
(not a pointer), `timestamps` a pointer, `buttons` a slice. -/
structure PayloadActivity where
  type : Int
  details : String
  state : String
  assets : PayloadAssets
  timestamps : Option PayloadTimestamps
  buttons : List PayloadButton

/-! ## `encoding/json` marshaling

`omitempty` omits a field whose value is the *empty value* for its Go type:
`""` for strings, `nil` for pointers, length-0 for slices.  A struct value is
never empty, so `omitempty` on a struct-typed field (such as
`payloadActivity.Assets`) has no effect and the key is always written. -/

/-- Marshal a `string` field tagged `omitempty`: key omitted iff the value
is the empty string. -/
def strField (k : String) (v : String) : List (String × Json) :=
  if v = "" then [] else [(k, Json.str v)]

/-- Marshal a `*T`-to-object field tagged `omitempty`: key omitted iff the
pointer is nil. -/
def ptrObjField (k : String) (v : Option (List (String × Json))) :
    List (String × Json) :=
  match v with
  | none => []
  | some fields => [(k, Json.obj fields)]

/-- Marshal a `*uint64` field tagged `omitempty`: key omitted iff the
pointer is nil. -/
def ptrIntField (k : String) (v : Option Nat) : List (String × Json) :=
  match v with
  | none => []
  | some n => [(k, Json.int (n : Int))]

/-- Marshal a slice field tagged `omitempty`: key omitted iff the slice has
length 0. -/
def sliceField (k : String) (v : List Json) : List (String × Json) :=
  match v with
  | [] => []
  | _ => [(k, Json.arr v)]

/-- Marshaling of `payloadAssets`: four `omitempty` strings, in struct
order. -/
def marshalAssets (a : PayloadAssets) : List (String × Json) :=
  strField "large_image" a.largeImage ++ strField "large_text" a.largeText ++
    strField "small_image" a.smallImage ++ strField "small_text" a.smallText

/-- Marshaling of `payloadTimestamps`: two `omitempty` `*uint64` fields. -/
def marshalTimestamps (t : PayloadTimestamps) : List (String × Json) :=
  ptrIntField "start" t.start ++ ptrIntField "end" t.end_

/-- Marshaling of `payloadButton`. -/
def marshalButton (b : PayloadButton) : Json :=
  Json.obj (strField "label" b.label ++ strField "url" b.url)

/-- Marshaling of `payloadActivity`, in struct order.  `type` has no
`omitempty`; `assets` is a struct-typed field, so its `omitempty` tag is
ineffective and the `assets` key is always written. -/
def marshalActivity (p : PayloadActivity) : List (String × Json) :=
  [("type", Json.int p.type)] ++ strField "details" p.details ++
    strField "state" p.state ++
    [("assets", Json.obj (marshalAssets p.assets))] ++
    ptrObjField "timestamps" (p.timestamps.map marshalTimestamps) ++
    sliceField "buttons" (p.buttons.map marshalButton)

/-! ## `SetActivity` payload construction (`client.go` lines 155-184) -/

/-- Go's `uint64(x)` conversion of an `int64` value: reduce modulo `2 ^ 64`
into `[0, 2 ^ 64)`. -/
def msToU64 (x : Int) : Nat := (x % (2 ^ 64 : Int)).toNat

/-- The `pa := &payloadActivity{...}` mapping built by `SetActivity`
(client.go lines 155-184), timestamps converted with `UnixMilli` and
`uint64(...)`. -/
def toPayloadActivity (a : Activity) : PayloadActivity where
  type := a.type
  details := a.details
  state := a.state
  assets :=
    { largeImage := a.largeImage
      largeText := a.largeText
      smallImage := a.smallImage
      smallText := a.smallText }
  timestamps := a.timestamps.map fun t =>
    { start := t.start.map msToU64, end_ := t.end_.map msToU64 }
  buttons := a.buttons.map fun b => { label := b.label, url := b.url }

/-- The encoded wire payload of an activity: the field list of the JSON
object `SetActivity` marshals. -/
def encodeActivity (a : Activity) : List (String × Json) :=
  marshalActivity (toPayloadActivity a)

/-! ## Framing transport (`client.go` lines 217-245)

Bytes are `Nat` values below 256.  `send` produces the exact byte sequence
the two `conn.Write` calls put on the wire: an 8-byte header — opcode then
payload length, each as a little-endian `uint32` — followed by the payload.
-/

/-- `binary.LittleEndian.PutUint32`: the four bytes of a `uint32` value,
least significant first. -/
def toLE32 (n : Nat) : List Nat :=
  [n % 256, n / 256 % 256, n / 65536 % 256, n / 16777216 % 256]

/-- `binary.LittleEndian.Uint32`: decode four little-endian bytes. -/
def fromLE32 : List Nat → Nat
  | b0 :: b1 :: b2 :: b3 :: _ => b0 + 256 * (b1 + 256 * (b2 + 256 * b3))
  | _ => 0

/-- `send` (client.go lines 217-229): header (opcode, then
`uint32(len(payload))`, little endian) followed by the payload bytes.  The
opcode parameter is a `uint32`, kept below `2 ^ 32` by hypothesis where it
matters; the length is truncated by the `uint32(...)` conversion. -/
def send (opcode : Nat) (payload : List Nat) : List Nat :=
  toLE32 opcode ++ toLE32 (payload.length % 2 ^ 32) ++ payload

/-- `receive` (client.go lines 232-245) over a connection that delivers its
buffered byte stream in full to each `conn.Read` call and errors when fewer
bytes than requested are available: read the 8 header bytes, decode the
length from bytes 4-7, read that many payload bytes.  (The short-read
behaviour of a raw `net.Conn.Read`, which can return fewer bytes than
requested with no error, is modelled separately by `receiveReads`.) -/
def receive (stream : List Nat) : Option (List Nat) :=
  if stream.length < 8 then none
  else
    let header := stream.take 8
    let length := fromLE32 (header.drop 4)
    let data := (stream.drop 8).take length
    if data.length < length then none else some data

/-- One `conn.Read(buf)` call with `len(buf) = bufLen` against a connection
modelled as a list of read outcomes: `none` is a connection error; `some bs`
is a successful call in which the kernel returned the bytes `bs` (so
`n = min bs.length bufLen`, and the rest of the freshly `make`-zeroed buffer
keeps its zeros).  The result is the full buffer content, because `receive`
ignores `n`. -/
def readCall (bufLen : Nat) (ev : Option (List Nat)) : Option (List Nat) :=
  match ev with
  | none => none
  | some bs => some (bs.take bufLen ++ List.replicate (bufLen - bs.length) 0)

/-- `receive` (client.go lines 232-245) against an explicit sequence of
`conn.Read` outcomes: the first outcome answers the 8-byte header read, the
second answers the payload read.  Only an error return from `conn.Read`
aborts; the byte count `n` is ignored, exactly as in the source, which
discards it (`if _, err := c.conn.Read(header); err != nil`).  A missing
outcome is treated as a connection error. -/
def receiveReads (reads : List (Option (List Nat))) : Option (List Nat) :=
  match reads with
  | [] => none
  | ev1 :: rest =>
    match readCall 8 ev1 with
    | none => none
    | some header =>
      let length := fromLE32 (header.drop 4)
      match rest with
      | [] => none
      | ev2 :: _ =>
        match readCall length ev2 with
        | none => none
        | some data => some data

/-! ## Nonce generation (`client.go` lines 248-253) -/

/-- One lowercase hexadecimal digit for a value below 16. -/
def hexDigit (n : Nat) : Char :=
  if n < 10 then Char.ofNat (48 + n) else Char.ofNat (87 + n)

/-- Go `%x` of a single byte: two lowercase hex digits. -/
def byteHex (b : Nat) : List Char :=
  [hexDigit (b / 16 % 16), hexDigit (b % 16)]

/-- Go `%x` of a byte slice: the concatenation of the bytes' hex digits. -/
def bytesHex (bs : List Nat) : List Char :=
  bs.foldr (fun b acc => byteHex b ++ acc) []

/-- The `fmt.Sprintf("%x-%x-%x-%x-%x", buf[0:4], buf[4:6], buf[6:8],
buf[8:10], buf[10:])` step of `nonce`. -/
def nonceFormat (b : List Nat) : String :=
  String.mk (bytesHex (b.take 4)) ++ "-" ++
    String.mk (bytesHex ((b.drop 4).take 2)) ++ "-" ++
    String.mk (bytesHex ((b.drop 6).take 2)) ++ "-" ++
    String.mk (bytesHex ((b.drop 8).take 2)) ++ "-" ++
    String.mk (bytesHex (b.drop 10))

/-- `nonce` (client.go lines 248-253) applied to the 16 random bytes drawn
by `rand.Read`: force byte 6 to `(buf[6] & 0x0f) | 0x40`, then format the
five slices with `%x-%x-%x-%x-%x`.  Byte 8 is left untouched. -/
def nonce (buf : List Nat) : String :=
  nonceFormat (buf.set 6 ((buf.getD 6 0 &&& 15) ||| 64))

/-! ## Socket locator (`client.go` lines 256-280) -/

/-- The candidate base-directory list of `openSocket`, in source order:
`XDG_RUNTIME_DIR`, `TMPDIR`, `TMP`, `TEMP`, then the fixed `/tmp`.  The
environment is a total map from variable names to values, an unset variable
reading as `""` exactly as `os.Getenv` reports it. -/
def tmpDirs (env : String → String) : List String :=
  [env "XDG_RUNTIME_DIR", env "TMPDIR", env "TMP", env "TEMP", "/tmp"]

/-- The socket path probed for directory `d` and index `i`:
`fmt.Sprintf("%s/discord-ipc-%d", tmpDir, i)`. -/
def socketPath (d : String) (i : Nat) : String :=
  d ++ "/discord-ipc-" ++ toString i

/-- The inner `for i := 0; i < 10; i++` loop of `openSocket` over its
remaining indices: dial each path in turn, returning the first that
connects.  `dial p = true` models `net.Dial("unix", p)` succeeding.  The
first component records every path actually passed to `net.Dial`, in
order. -/
def dialLoop (dial : String → Bool) (d : String) :
    List Nat → List String × Option String
  | [] => ([], none)
  | i :: rest =>
    if dial (socketPath d i) then ([socketPath d i], some (socketPath d i))
    else
      let r := dialLoop dial d rest
      (socketPath d i :: r.1, r.2)

/-- The outer `for _, tmpDir := range tmpDirs` loop of `openSocket` over its
remaining directories: skip an empty candidate (`continue`), otherwise run
the index loop and return its first success immediately.  The first
component again records every dialled path, in order. -/
def dirLoop (dial : String → Bool) : List String → List String × Option String
  | [] => ([], none)
  | d :: rest =>
    if d = "" then dirLoop dial rest
    else
      let r := dialLoop dial d (List.range 10)
      match r.2 with
      | some conn => (r.1, some conn)
      | none =>
        let s := dirLoop dial rest
        (r.1 ++ s.1, s.2)

/-- `openSocket` (client.go lines 256-280): probe the candidate directories
in priority order; `none` models the
`fmt.Errorf("Discord IPC socket not found")` return. -/
def openSocket (env : String → String) (dial : String → Bool) :
    Option String :=
  (dirLoop dial (tmpDirs env)).2

/-- The paths `openSocket` passes to `net.Dial`, in order. -/
def openSocketProbes (env : String → String) (dial : String → Bool) :
    List String :=
  (dirLoop dial (tmpDirs env)).1

/-- Probing a flat list of candidate paths: first success with its trace of
attempted paths.  `dialLoop` and `dirLoop` both reduce to this. -/
def probeList (dial : String → Bool) : List String → List String × Option String
  | [] => ([], none)
  | p :: rest =>
    if dial p then ([p], some p)
    else (p :: (probeList dial rest).1, (probeList dial rest).2)

/-- The full ordered enumeration of the (directory × index) combinations
`openSocket` can probe: non-empty candidate directories in priority order,
indices 0-9 within each. -/
def socketCandidates (env : String → String) : List String :=
  ((tmpDirs env).filter (fun d => d ≠ "")).flatMap
    fun d => (List.range 10).map (socketPath d)

/-! ## Session (`Client`, `client.go` lines 93-214)

The `Client` state: an endpoint handle (`net.Conn`) is an opaque `Nat`; the
`conn` field is `none` for a nil connection.  I/O against the peer is
resolved by oracles: `LoginEnv` fixes the outcome of the locator, the
handshake write and the handshake read, and the `IOEvent` trace records the
socket I/O an operation performs on an established connection. -/

/-- `Client` (client.go lines 94-98). -/
structure Client where
  clientID : String
  conn : Option Nat
  logged : Bool

/-- Socket I/O on an established connection: the successful `net.Dial`, one
`send` call (its two `conn.Write`s), one `receive` call. -/
inductive IOEvent where
  | connect : IOEvent
  | write : IOEvent
  | read : IOEvent
deriving DecidableEq

/-- The errors `Login` can return. -/
inductive LoginErr where
  | connectError : LoginErr
  | sendError : LoginErr
  | handshakeError : LoginErr
deriving DecidableEq

/-- The outcomes of the three I/O steps a non-no-op `Login` attempts:
`locate` is the `openSocket` result (the endpoint handle on success),
`sendOk` the handshake `send`, `recvOk` the handshake `receive`. -/
structure LoginEnv where
  locate : Option Nat
  sendOk : Bool
  recvOk : Bool

/-- `Login` (client.go lines 108-137): no-op when already logged in;
otherwise locate the socket (failure: `failed to connect to Discord`),
store the connection in `c.conn`, send the handshake, and read one reply
(failure: `handshake failed`).  Only on full success is `logged` set.  On a
send or receive failure the stored connection is neither closed nor
cleared — the source returns with `c.conn` still set.  Returns the error,
the resulting state, and the I/O event trace. -/
def Login (c : Client) (env : LoginEnv) :
    Option LoginErr × Client × List IOEvent :=
  if c.logged then (none, c, [])
  else
    match env.locate with
    | none => (some LoginErr.connectError, c, [])
    | some conn =>
      let c1 : Client := { c with conn := some conn }
      if env.sendOk then
        if env.recvOk then
          (none, { c1 with logged := true },
            [IOEvent.connect, IOEvent.write, IOEvent.read])
        else
          (some LoginErr.handshakeError, c1,
            [IOEvent.connect, IOEvent.write, IOEvent.read])
      else (some LoginErr.sendError, c1, [IOEvent.connect, IOEvent.write])

/-- `Logout` (client.go lines 140-146): close and clear the connection if
there is one, and clear `logged`. -/
def Logout (c : Client) : Client :=
  { c with conn := none, logged := false }

/-- The opcode-1 command frame `SetActivity` marshals (client.go lines
186-190): `{cmd, args: {pid, activity}, nonce}`.  The `activity` field of
`args` carries no `omitempty`. -/
def setActivityFrame (a : Activity) (pid : Int) (non : String) : Json :=
  Json.obj
    [("cmd", Json.str "SET_ACTIVITY"),
     ("args",
       Json.obj [("pid", Json.int pid),
                 ("activity", Json.obj (encodeActivity a))]),
     ("nonce", Json.str non)]

/-- The opcode-1 command frame `ClearActivity` marshals (client.go lines
204-208): the nil activity pointer is marshaled as JSON `null` because the
`activity` field carries no `omitempty`. -/
def clearActivityFrame (pid : Int) (non : String) : Json :=
  Json.obj
    [("cmd", Json.str "SET_ACTIVITY"),
     ("args", Json.obj [("pid", Json.int pid), ("activity", Json.null)]),
     ("nonce", Json.str non)]

/-- `SetActivity` (client.go lines 149-196) against a connection that
accepts writes: `not logged in` error and no write when `logged` is false;
otherwise one opcode-1 frame is sent.  `pid` is `os.Getpid()` and `non` the
fresh `nonce()` value. -/
def SetActivity (c : Client) (a : Activity) (pid : Int) (non : String) :
    Option String × List (Nat × Json) :=
  if c.logged then (none, [(1, setActivityFrame a pid non)])
  else (some "not logged in", [])

/-- `ClearActivity` (client.go lines 199-214) against a connection that
accepts writes: success and no write when `logged` is false; otherwise one
opcode-1 frame with a null activity is sent. -/
def ClearActivity (c : Client) (pid : Int) (non : String) :
    Option String × List (Nat × Json) :=
  if c.logged then (none, [(1, clearActivityFrame pid non)])
  else (none, [])

/-! ## Concrete inputs used for evaluation -/

/-- An activity whose text and image fields are all empty, with no
timestamps and no buttons. -/
def actAllEmpty : Activity :=
  ⟨2, "", "", "", "", "", "", none, []⟩

/-- An activity carrying a non-nil `Timestamps` struct in which both
instants are absent. -/
def actEmptyTimestamps : Activity :=
  ⟨2, "", "", "", "", "", "", some ⟨none, none⟩, []⟩

/-- A typical bridge update: an end instant only. -/
def actEndOnly : Activity :=
  ⟨2, "Song", "by Artist", "art", "Album", "", "",
    some ⟨none, some 1700000000000⟩, []⟩

/-- Sixteen zero bytes, as a possible output of `rand.Read`. -/
def zeros16 : List Nat := List.replicate 16 0

/-- A lowercase hexadecimal digit character. -/
def isHexChar (c : Char) : Bool :=
  (48 ≤ c.toNat && c.toNat ≤ 57) || (97 ≤ c.toNat && c.toNat ≤ 102)

/-! ## Theorems -/

/-- C1: evaluation of the encoder at an activity whose `details`, `state`
and four image/text fields are all empty.  The `details` and `state` keys
are correctly absent, but the `assets` key is present with an empty object
value — `encoding/json` never treats a struct value as empty, so the
`json:"assets,omitempty"` tag does not omit it — contradicting the claim
that the assets object is omitted entirely when all four image/text fields
are empty. -/
theorem c1_empty_assets_key_sent :
    List.lookup "assets" (encodeActivity actAllEmpty) =
        some (Json.obj []) ∧
      List.lookup "details" (encodeActivity actAllEmpty) = none ∧
      List.lookup "state" (encodeActivity actAllEmpty) = none :=
  ⟨rfl, rfl, rfl⟩

/-- C2 counterexample: an activity whose `Timestamps` struct is present but
carries neither a start nor an end instant is encoded with a `timestamps`
key (holding an empty object), refuting the claim that a description with
neither instant has no `timestamps` key in its payload. -/
theorem c2_empty_timestamps_key_sent :
    actEmptyTimestamps.timestamps = some ⟨none, none⟩ ∧
      List.lookup "timestamps" (encodeActivity actEmptyTimestamps) =
        some (Json.obj []) :=
  ⟨rfl, rfl⟩

/-- C4: evaluation of `receive` at a connection whose first `conn.Read`
returns a single byte (`0x01`) with no error — a short read.  The source
ignores the byte count `conn.Read` returns, so the remaining seven header
bytes keep their zeros, the length field decodes to 0 and `receive`
returns an empty payload with success instead of surfacing an `IOError`. -/
theorem c4_short_read_not_surfaced :
    receiveReads [some [1], some []] = some [] := rfl

/-- C7 counterexample: a fresh client whose `Login` locates endpoint 7 and
sends the handshake, but whose handshake `receive` fails.  `Login` returns
the handshake error and the session remains `Disconnected`, yet the
session still holds the open endpoint — the source neither closes nor
clears `c.conn` on that path — refuting the claim that after a
handshake-failed `Login` the session holds no open endpoint. -/
theorem c7_handshake_failure_keeps_endpoint :
    (Login ⟨"id", none, false⟩ ⟨some 7, true, false⟩).1 =
        some LoginErr.handshakeError ∧
      (Login ⟨"id", none, false⟩ ⟨some 7, true, false⟩).2.1.logged = false ∧
      (Login ⟨"id", none, false⟩ ⟨some 7, true, false⟩).2.1.conn = some 7 :=
  ⟨rfl, rfl, rfl⟩

/-- C5: while the session is `Disconnected`, `SetActivity` returns the
`not logged in` error and writes nothing to the socket, and `ClearActivity`
returns success as a no-op and writes nothing to the socket. -/
theorem c5_disconnected_ops_no_writes (c : Client) (a : Activity)
    (pid : Int) (n1 n2 : String) (h : c.logged = false) :
    SetActivity c a pid n1 = (some "not logged in", []) ∧
      ClearActivity c pid n2 = (none, []) := by
  rw [SetActivity, ClearActivity, h]
  simp

/-- Witness for C5 at a concrete disconnected client. -/
theorem c5_disconnected_ops_no_writes_witness :
    SetActivity ⟨"appid", none, false⟩ actEndOnly 42 "n1" =
        (some "not logged in", []) ∧
      ClearActivity ⟨"appid", none, false⟩ 42 "n2" = (none, []) :=
  c5_disconnected_ops_no_writes ⟨"appid", none, false⟩ actEndOnly 42 "n1" "n2"
    rfl

/-- C9: `Login` is idempotent.  A successful `Login` from the disconnected
state performs the connect, the handshake write and the handshake read
exactly once, and a second `Login` on the resulting connected session is a
success no-op that performs no socket I/O at all — so two `Login` calls in
a row perform socket I/O exactly once. -/
theorem c9_login_idempotent (c : Client) (env1 env2 : LoginEnv)
    (h0 : c.logged = false) (hsucc : (Login c env1).1 = none) :
    (Login c env1).2.2 = [IOEvent.connect, IOEvent.write, IOEvent.read] ∧
      Login (Login c env1).2.1 env2 = (none, (Login c env1).2.1, []) := by
  cases hloc : env1.locate with
  | none =>
    rw [Login, h0, hloc] at hsucc
    simp at hsucc
  | some ep =>
    cases hs : env1.sendOk with
    | false =>
      rw [Login, h0, hloc, hs] at hsucc
      simp at hsucc
    | true =>
      cases hr : env1.recvOk with
      | false =>
        rw [Login, h0, hloc, hs, hr] at hsucc
        simp at hsucc
      | true =>
        have hL : Login c env1 =
            (none, { c with conn := some ep, logged := true },
              [IOEvent.connect, IOEvent.write, IOEvent.read]) := by
          rw [Login, h0, hloc, hs, hr]
          simp
        rw [hL]
        exact ⟨rfl, by rw [Login]; simp⟩

/-- Witness for C9: a fresh client logging in against an endpoint at
handle 3 with a successful handshake, twice. -/
theorem c9_login_idempotent_witness :
    (Login ⟨"appid", none, false⟩ ⟨some 3, true, true⟩).2.2 =
        [IOEvent.connect, IOEvent.write, IOEvent.read] ∧
      Login (Login ⟨"appid", none, false⟩ ⟨some 3, true, true⟩).2.1
          ⟨some 9, true, true⟩ =
        (none, (Login ⟨"appid", none, false⟩ ⟨some 3, true, true⟩).2.1, []) :=
  c9_login_idempotent ⟨"appid", none, false⟩ ⟨some 3, true, true⟩
    ⟨some 9, true, true⟩ rfl rfl

/-- C7 amended: after `Logout` the session holds no endpoint and is
`Disconnected`; a `Login` that fails at the locator leaves the session
unchanged (in particular a fresh session still holds no endpoint); but a
`Login` whose handshake `receive` fails leaves the session `Disconnected`
with the located endpoint still stored and unclosed. -/
theorem c7_endpoint_lifecycle (c : Client) (env : LoginEnv) :
    ((Logout c).conn = none ∧ (Logout c).logged = false) ∧
      (c.logged = false → env.locate = none →
        Login c env = (some LoginErr.connectError, c, [])) ∧
      (∀ ep : Nat, c.logged = false → env.locate = some ep →
        env.sendOk = true → env.recvOk = false →
        Login c env =
          (some LoginErr.handshakeError, { c with conn := some ep },
            [IOEvent.connect, IOEvent.write, IOEvent.read])) := by
  refine ⟨⟨rfl, rfl⟩, ?_, ?_⟩
  · intro h0 hloc
    rw [Login, h0, hloc]
    simp
  · intro ep h0 hloc hs hr
    rw [Login, h0, hloc, hs, hr]
    simp

/-- Witness for C7 at a fresh client: `Logout` clears, a locate-failed
`Login` stays clear, and a handshake-failed `Login` retains endpoint 5. -/
theorem c7_endpoint_lifecycle_witness :
    ((Logout ⟨"appid", none, false⟩).conn = none ∧
        (Logout ⟨"appid", none, false⟩).logged = false) ∧
      Login ⟨"appid", none, false⟩ ⟨none, true, true⟩ =
        (some LoginErr.connectError, ⟨"appid", none, false⟩, []) ∧
      Login ⟨"appid", none, false⟩ ⟨some 5, true, false⟩ =
        (some LoginErr.handshakeError, ⟨"appid", some 5, false⟩,
          [IOEvent.connect, IOEvent.write, IOEvent.read]) :=
  ⟨(c7_endpoint_lifecycle ⟨"appid", none, false⟩ ⟨none, true, true⟩).1,
    (c7_endpoint_lifecycle ⟨"appid", none, false⟩ ⟨none, true, true⟩).2.1
      rfl rfl,
    (c7_endpoint_lifecycle ⟨"appid", none, false⟩ ⟨some 5, true, false⟩).2.2
      5 rfl rfl rfl rfl⟩

/-- Decoding the four little-endian bytes of `n` recovers `n` modulo
`2 ^ 32`. -/
theorem fromLE32_toLE32 (n : Nat) : fromLE32 (toLE32 n) = n % 2 ^ 32 := by
  simp only [toLE32, fromLE32]
  omega

/-- `fromLE32` only inspects the first four bytes, so trailing bytes do not
change the decoded value. -/
theorem fromLE32_toLE32_append (n : Nat) (rest : List Nat) :
    fromLE32 (toLE32 n ++ rest) = n % 2 ^ 32 := by
  simp only [toLE32, List.cons_append, List.nil_append, fromLE32]
  omega

/-- C3: framing round trip.  For every `uint32` opcode and every payload
whose length is representable in the header's 32-bit length field —
payload sizes 0, 1 and multi-kilobyte documents all are — decoding the
byte sequence `send` produces recovers the exact payload bytes, and its
header decodes back to the exact opcode. -/
theorem c3_frame_roundtrip (opcode : Nat) (payload : List Nat)
    (hop : opcode < 2 ^ 32) (hlen : payload.length < 2 ^ 32) :
    receive (send opcode payload) = some payload ∧
      fromLE32 (send opcode payload) = opcode := by
  have hL : payload.length % 2 ^ 32 = payload.length := Nat.mod_eq_of_lt hlen
  constructor
  · have hsend : send opcode payload =
        (toLE32 opcode ++ toLE32 payload.length) ++ payload := by
      rw [send, hL, List.append_assoc]
    have hpre : (toLE32 opcode ++ toLE32 payload.length).length = 8 := by
      simp [toLE32]
    have hlen4 : (toLE32 opcode).length = 4 := by simp [toLE32]
    rw [hsend]
    simp only [receive, List.take_left' hpre, List.drop_left' hpre,
      List.drop_left' hlen4, fromLE32_toLE32, hL, List.take_length,
      List.length_append, hpre]
    rw [if_neg (by omega), if_neg (by omega)]
  · rw [send, List.append_assoc, fromLE32_toLE32_append, Nat.mod_eq_of_lt hop]

/-- Witness for C3 at opcode 1 and the one-byte payload `[42]`. -/
theorem c3_frame_roundtrip_witness :
    receive (send 1 [42]) = some [42] ∧ fromLE32 (send 1 [42]) = 1 :=
  c3_frame_roundtrip 1 [42] (by decide) (by decide)

/-- The inner index loop is the flat probe of the ten candidate paths of
its directory. -/
theorem dialLoop_eq_probeList (dial : String → Bool) (d : String)
    (is : List Nat) :
    dialLoop dial d is = probeList dial (is.map (socketPath d)) := by
  induction is with
  | nil => rfl
  | cons i rest ih =>
    simp only [dialLoop, List.map_cons, probeList]
    rw [ih]

/-- Probing a concatenation, when the first part succeeds: identical to
probing the first part alone — the second part is never attempted. -/
theorem probeList_append_some (dial : String → Bool) (l1 l2 : List String)
    (c : String) (h : (probeList dial l1).2 = some c) :
    probeList dial (l1 ++ l2) = probeList dial l1 := by
  induction l1 with
  | nil => simp [probeList] at h
  | cons p rest ih =>
    cases hp : dial p with
    | true => simp [List.cons_append, probeList, hp]
    | false =>
      simp only [probeList, hp, Bool.false_eq_true, if_false] at h
      simp only [List.cons_append, probeList, hp, Bool.false_eq_true,
        if_false, List.append_eq]
      rw [ih h]

/-- Probing a concatenation, when the first part fails throughout: every
path of the first part is attempted, then the second part is probed. -/
theorem probeList_append_none (dial : String → Bool) (l1 l2 : List String)
    (h : (probeList dial l1).2 = none) :
    probeList dial (l1 ++ l2) =
      ((probeList dial l1).1 ++ (probeList dial l2).1,
        (probeList dial l2).2) := by
  induction l1 with
  | nil => simp [probeList]
  | cons p rest ih =>
    cases hp : dial p with
    | true => simp [probeList, hp] at h
    | false =>
      simp only [probeList, hp, Bool.false_eq_true, if_false] at h
      simp only [List.cons_append, probeList, hp, Bool.false_eq_true,
        if_false, List.append_eq]
      rw [ih h]

/-- The outer directory loop is the flat probe of the full candidate
enumeration: non-empty directories in priority order, ten indices each. -/
theorem dirLoop_eq_probeList (dial : String → Bool) (ds : List String) :
    dirLoop dial ds =
      probeList dial ((ds.filter (fun d => d ≠ "")).flatMap
        (fun d => (List.range 10).map (socketPath d))) := by
  induction ds with
  | nil => rfl
  | cons d rest ih =>
    by_cases hd : d = ""
    · rw [dirLoop, if_pos hd, ih, List.filter_cons, if_neg (by simp [hd])]
    · rw [dirLoop, if_neg hd, List.filter_cons, if_pos (by simp [hd]),
        List.flatMap_cons, dialLoop_eq_probeList]
      cases h2 : (probeList dial ((List.range 10).map (socketPath d))).2 with
      | some c =>
        have hsplit : probeList dial ((List.range 10).map (socketPath d)) =
            ((probeList dial ((List.range 10).map (socketPath d))).1,
              some c) := by
          rw [← h2]
        rw [probeList_append_some dial _ _ c h2, hsplit]
      | none =>
        have hsplit : probeList dial ((List.range 10).map (socketPath d)) =
            ((probeList dial ((List.range 10).map (socketPath d))).1,
              none) := by
          rw [← h2]
        rw [probeList_append_none dial _ _ h2, ih, hsplit]

/-- The flat probe attempts exactly the failing prefix of its candidate
list followed by the first success (if any), and returns the first
success. -/
theorem probeList_spec (dial : String → Bool) (l : List String) :
    probeList dial l =
      (l.takeWhile (fun p => !dial p) ++ (l.find? dial).toList,
        l.find? dial) := by
  induction l with
  | nil => rfl
  | cons p rest ih =>
    by_cases h : dial p = true
    · simp [probeList, h, List.takeWhile_cons, List.find?_cons]
    · have hf : dial p = false := by simpa using h
      simp [probeList, hf, List.takeWhile_cons, List.find?_cons, ih]

/-- C6: the socket locator probes the candidate paths — the non-empty base
directories `XDG_RUNTIME_DIR`, `TMPDIR`, `TMP`, `TEMP`, `/tmp` in priority
order, and `<base>/discord-ipc-<n>` for `n` in 0..9 in order within each —
returning the first path that connects; the paths it actually dials are
exactly the failing prefix of that enumeration followed by the first
success, so no later (directory × index) combination is probed; and it
fails with not-found exactly when every combination fails. -/
theorem c6_locator_first_success (env : String → String)
    (dial : String → Bool) :
    openSocket env dial = (socketCandidates env).find? dial ∧
      openSocketProbes env dial =
        (socketCandidates env).takeWhile (fun p => !dial p) ++
          ((socketCandidates env).find? dial).toList ∧
      (openSocket env dial = none ↔
        ∀ p ∈ socketCandidates env, dial p = false) := by
  have h : dirLoop dial (tmpDirs env) =
      probeList dial (socketCandidates env) := dirLoop_eq_probeList dial _
  have hs := probeList_spec dial (socketCandidates env)
  refine ⟨?_, ?_, ?_⟩
  · rw [openSocket, h, hs]
  · rw [openSocketProbes, h, hs]
  · rw [openSocket, h, hs]
    simp only [List.find?_eq_none, Bool.not_eq_true]

/-- Looking a key up past a prefix that does not contain it. -/
theorem lookup_append_of_none {β : Type} (k : String)
    (l1 l2 : List (String × β)) (h : List.lookup k l1 = none) :
    List.lookup k (l1 ++ l2) = List.lookup k l2 := by
  induction l1 with
  | nil => rfl
  | cons kv rest ih =>
    obtain ⟨k2, v⟩ := kv
    cases hk : (k == k2) with
    | true => simp [List.lookup, hk] at h
    | false =>
      simp only [List.lookup, hk] at h
      simp only [List.cons_append, List.lookup, hk]
      exact ih h

/-- A marshaled `omitempty` string field never contains a different key. -/
theorem lookup_strField_ne {k1 k2 : String} (v : String)
    (h : (k1 == k2) = false) : List.lookup k1 (strField k2 v) = none := by
  rw [strField]
  split
  · rfl
  · simp [List.lookup, h]

/-- A marshaled `omitempty` slice field never contains a different key. -/
theorem lookup_sliceField_ne {k1 k2 : String} (v : List Json)
    (h : (k1 == k2) = false) : List.lookup k1 (sliceField k2 v) = none := by
  cases v with
  | nil => rfl
  | cons j js => simp [sliceField, List.lookup, h]

/-- Skipping a marshaled singleton field with a different key during a
lookup for `timestamps`. -/
theorem lookup_ts_skip_singleton (k2 : String) (v : Json)
    (rest : List (String × Json)) (h : List.lookup "timestamps" [(k2, v)] = none) :
    List.lookup "timestamps" ([(k2, v)] ++ rest) =
      List.lookup "timestamps" rest :=
  lookup_append_of_none _ _ _ h

/-- Skipping a marshaled `omitempty` string field with a different key
during a lookup for `timestamps`. -/
theorem lookup_ts_skip_strField (k2 : String) (v : String)
    (rest : List (String × Json)) (h : ("timestamps" == k2) = false) :
    List.lookup "timestamps" (strField k2 v ++ rest) =
      List.lookup "timestamps" rest :=
  lookup_append_of_none _ _ _ (lookup_strField_ne v h)

/-- The `timestamps` key of an encoded activity is exactly the image of the
description's `Timestamps` pointer: absent for a nil pointer, and the
marshaled start/end fields otherwise. -/
theorem lookup_timestamps_encode (a : Activity) :
    List.lookup "timestamps" (encodeActivity a) =
      a.timestamps.map fun t =>
        Json.obj (marshalTimestamps
          ⟨t.start.map msToU64, t.end_.map msToU64⟩) := by
  rw [encodeActivity, marshalActivity]
  simp only [List.append_assoc]
  rw [lookup_ts_skip_singleton "type" _ _ rfl,
    lookup_ts_skip_strField "details" _ _ rfl,
    lookup_ts_skip_strField "state" _ _ rfl,
    lookup_ts_skip_singleton "assets" _ _ rfl]
  cases hts : a.timestamps with
  | none =>
    have hb : List.lookup "timestamps"
        (sliceField "buttons"
          ((toPayloadActivity a).buttons.map marshalButton)) = none :=
      lookup_sliceField_ne _ rfl
    simp only [toPayloadActivity, hts, Option.map_none, ptrObjField,
      List.nil_append]
    simpa [toPayloadActivity] using hb
  | some t =>
    simp only [toPayloadActivity, hts, Option.map_some, ptrObjField]
    simp [List.lookup]

/-- C2 amended: a description whose `Timestamps` pointer is nil is encoded
with no `timestamps` key; one whose `Timestamps` struct carries only an
end instant gets a `timestamps` object containing only `end`, the instant
converted to milliseconds since epoch as an unsigned 64-bit integer (and
symmetrically only `start` for a start-only description); but a present
`Timestamps` struct with both instants absent yields a present-but-empty
`timestamps` object rather than an absent key. -/
theorem c2_timestamps_encoding (a : Activity) :
    (a.timestamps = none →
        List.lookup "timestamps" (encodeActivity a) = none) ∧
      (∀ e : Int, a.timestamps = some ⟨none, some e⟩ →
        List.lookup "timestamps" (encodeActivity a) =
          some (Json.obj [("end", Json.int (msToU64 e))])) ∧
      (∀ s : Int, a.timestamps = some ⟨some s, none⟩ →
        List.lookup "timestamps" (encodeActivity a) =
          some (Json.obj [("start", Json.int (msToU64 s))])) ∧
      (a.timestamps = some ⟨none, none⟩ →
        List.lookup "timestamps" (encodeActivity a) =
          some (Json.obj [])) := by
  refine ⟨?_, ?_, ?_, ?_⟩
  · intro h
    rw [lookup_timestamps_encode, h]
    rfl
  · intro e h
    rw [lookup_timestamps_encode, h]
    simp [marshalTimestamps, ptrIntField]
  · intro s h
    rw [lookup_timestamps_encode, h]
    simp [marshalTimestamps, ptrIntField]
  · intro h
    rw [lookup_timestamps_encode, h]
    simp [marshalTimestamps, ptrIntField]

/-- Witness for C2's amended statement: an end-only description carries
exactly the `end` milliseconds value inside `timestamps`. -/
theorem c2_timestamps_encoding_witness :
    List.lookup "timestamps" (encodeActivity actEndOnly) =
      some (Json.obj [("end", Json.int (msToU64 1700000000000))]) :=
  (c2_timestamps_encoding actEndOnly).2.1 1700000000000 rfl

/-- Hex digits come in byte pairs. -/
theorem bytesHex_cons (b : Nat) (rest : List Nat) :
    bytesHex (b :: rest) = byteHex b ++ bytesHex rest := rfl

/-- `%x` of `k` bytes yields `2 * k` characters. -/
theorem bytesHex_length (bs : List Nat) :
    (bytesHex bs).length = 2 * bs.length := by
  induction bs with
  | nil => rfl
  | cons b rest ih =>
    rw [bytesHex_cons, List.length_append, ih, List.length_cons]
    simp [byteHex]
    omega

/-- `hexDigit` of a value below 16 is a lowercase hexadecimal digit. -/
theorem hexDigit_isHex (n : Nat) (h : n < 16) :
    isHexChar (hexDigit n) = true := by
  have hall : ∀ m, m < 16 → isHexChar (hexDigit m) = true := by decide
  exact hall n h

/-- Every character `%x` produces is a lowercase hexadecimal digit. -/
theorem mem_byteHex_isHex (b : Nat) :
    ∀ ch ∈ byteHex b, isHexChar ch = true := by
  intro ch hch
  simp only [byteHex, List.mem_cons, List.not_mem_nil, or_false] at hch
  rcases hch with h | h <;> subst h <;>
    exact hexDigit_isHex _ (Nat.mod_lt _ (by omega))

/-- Every character of a hex-formatted byte string is a lowercase
hexadecimal digit. -/
theorem mem_bytesHex_isHex (bs : List Nat) :
    ∀ ch ∈ bytesHex bs, isHexChar ch = true := by
  induction bs with
  | nil => intro ch hch; simp [bytesHex] at hch
  | cons b rest ih =>
    intro ch hch
    rw [bytesHex_cons] at hch
    rcases List.mem_append.mp hch with h | h
    · exact mem_byteHex_isHex b ch h
    · exact ih ch h

/-- The high nibble of `(x & 0x0f) | 0x40` is always 4. -/
theorem versionNibble (x : Nat) : ((x &&& 15) ||| 64) / 16 % 16 = 4 := by
  have h : x &&& 15 < 16 := Nat.lt_of_le_of_lt Nat.and_le_right (by omega)
  have hall : ∀ y, y < 16 → (y ||| 64) / 16 % 16 = 4 := by decide
  exact hall _ h

/-- The characters of the formatted nonce: the five hex groups joined by
dashes. -/
theorem nonceFormat_data (b : List Nat) :
    (nonceFormat b).data =
      bytesHex (b.take 4) ++ '-' :: (bytesHex ((b.drop 4).take 2) ++ '-' ::
        (bytesHex ((b.drop 6).take 2) ++ '-' ::
          (bytesHex ((b.drop 8).take 2) ++ '-' :: bytesHex (b.drop 10)))) := by
  simp [nonceFormat, String.data_append]

/-- C8 counterexample: for the all-zero random buffer, the generated nonce
is `00000000-0000-4000-0000-000000000000`; its character at index 19 — the
`y` position of the claimed pattern `xxxxxxxx-xxxx-4xxx-yxxx-...` — is `0`,
not one of `8`, `9`, `a`, `b`: the source forces the version nibble of
byte 6 but never touches the variant bits of byte 8. -/
theorem c8_variant_bits_not_fixed :
    nonce zeros16 = "00000000-0000-4000-0000-000000000000" ∧
      (nonce zeros16).data.getD 19 ' ' = '0' ∧
      ¬ ((nonce zeros16).data.getD 19 ' ' = '8' ∨
        (nonce zeros16).data.getD 19 ' ' = '9' ∨
        (nonce zeros16).data.getD 19 ' ' = 'a' ∨
        (nonce zeros16).data.getD 19 ' ' = 'b') := by
  refine ⟨?_, ?_, ?_⟩ <;> decide

/-- C8 amended: every generated nonce is five dash-separated groups of
8, 4, 4, 4 and 12 lowercase hexadecimal digits, with the version nibble —
the first digit of the third group, character 14 — fixed to `4`; the
variant bits of byte 8 (the first digit of the fourth group) are left
random rather than fixed, and a fresh nonce is drawn per outbound command
frame. -/
theorem c8_nonce_format (buf : List Nat) (h : buf.length = 16) :
    ∃ g1 g2 g3 g4 g5 : List Char,
      (nonce buf).data =
          g1 ++ '-' :: (g2 ++ '-' :: (g3 ++ '-' :: (g4 ++ '-' :: g5))) ∧
        g1.length = 8 ∧ g2.length = 4 ∧ g3.length = 4 ∧ g4.length = 4 ∧
        g5.length = 12 ∧ g3.headD ' ' = '4' ∧
        (∀ ch, (ch ∈ g1 ∨ ch ∈ g2 ∨ ch ∈ g3 ∨ ch ∈ g4 ∨ ch ∈ g5) →
          isHexChar ch = true) := by
  have hlen : (buf.set 6 ((buf.getD 6 0 &&& 15) ||| 64)).length = 16 := by
    rw [List.length_set, h]
  have h6 : 6 < (buf.set 6 ((buf.getD 6 0 &&& 15) ||| 64)).length := by omega
  have hdrop6 : (buf.set 6 ((buf.getD 6 0 &&& 15) ||| 64)).drop 6 =
      ((buf.getD 6 0 &&& 15) ||| 64) ::
        (buf.set 6 ((buf.getD 6 0 &&& 15) ||| 64)).drop 7 := by
    rw [List.drop_eq_getElem_cons h6, List.getElem_set_self]
  refine ⟨bytesHex ((buf.set 6 ((buf.getD 6 0 &&& 15) ||| 64)).take 4),
    bytesHex (((buf.set 6 ((buf.getD 6 0 &&& 15) ||| 64)).drop 4).take 2),
    bytesHex (((buf.set 6 ((buf.getD 6 0 &&& 15) ||| 64)).drop 6).take 2),
    bytesHex (((buf.set 6 ((buf.getD 6 0 &&& 15) ||| 64)).drop 8).take 2),
    bytesHex ((buf.set 6 ((buf.getD 6 0 &&& 15) ||| 64)).drop 10),
    nonceFormat_data _, ?_, ?_, ?_, ?_, ?_, ?_, ?_⟩
  · rw [bytesHex_length, List.length_take, hlen]; decide
  · rw [bytesHex_length, List.length_take, List.length_drop, hlen]; decide
  · rw [bytesHex_length, List.length_take, List.length_drop, hlen]; decide
  · rw [bytesHex_length, List.length_take, List.length_drop, hlen]; decide
  · rw [bytesHex_length, List.length_drop, hlen]
  · rw [hdrop6]
    have hv : (((buf.getD 6 0 &&& 15) ||| 64) / 16 % 16) = 4 :=
      versionNibble (buf.getD 6 0)
    show hexDigit (((buf.getD 6 0 &&& 15) ||| 64) / 16 % 16) = '4'
    rw [hv]
    rfl
  · intro ch hch
    rcases hch with hm | hm | hm | hm | hm <;>
      exact mem_bytesHex_isHex _ ch hm

/-- Witness for C8's amended statement at a concrete random buffer. -/
theorem c8_nonce_format_witness :
    ∃ g1 g2 g3 g4 g5 : List Char,
      (nonce zeros16).data =
          g1 ++ '-' :: (g2 ++ '-' :: (g3 ++ '-' :: (g4 ++ '-' :: g5))) ∧
        g1.length = 8 ∧ g2.length = 4 ∧ g3.length = 4 ∧ g4.length = 4 ∧
        g5.length = 12 ∧ g3.headD ' ' = '4' ∧
        (∀ ch, (ch ∈ g1 ∨ ch ∈ g2 ∨ ch ∈ g3 ∨ ch ∈ g4 ∨ ch ∈ g5) →
          isHexChar ch = true) :=
  c8_nonce_format zeros16 (by decide)

end discord
